import Mathlib

/-!
Shallow embedding of the steampipe-plugin-azure table handlers
(src/azure/*.go and src/unnamed/part_001, part_002).

Each Go List/Get hydrate function is modelled as a pure Lean function from
the outcomes of its external interactions (session acquisition, the provider's
paged fetches, the provider's Get reply) to the observable behaviour of a run:
an ordered event trace (session request, ApplyRetryRules, API calls,
WaitForListRateLimit, NextWithContext, StreamListItem) together with the Go
return pair `(interface{}, error)`.
-/

namespace SteampipeAzure

/-- One observable event of a hydrate-function run.
`sessionReq` models `GetNewSession`, `applyRetry` models `ApplyRetryRules`,
`listCall` the initial List/ListAll API call, `wait` a
`WaitForListRateLimit` call, `next` a `NextWithContext` call, `getCall` a
provider Get call, and `stream a` a `d.StreamListItem(ctx, a)`. -/
inductive Ev (α : Type) where
  | sessionReq : Ev α
  | applyRetry : Ev α
  | listCall : Ev α
  | wait : Ev α
  | next : Ev α
  | getCall : Ev α
  | stream : α → Ev α
deriving Repr, DecidableEq

/-- The state of the SDK page iterator as observed by the Go code after a
fetch: `values` is `result.Values()` and `notDone` is `result.NotDone()`. -/
structure Page (α : Type) where
  values : List α
  notDone : Bool
deriving Repr, DecidableEq

/-- Outcome of one provider fetch (the initial `List` call or one
`NextWithContext` call): either an error (identified by its code) or a page. -/
abbrev Fetch (α : Type) := Except String (Page α)

/-- The Go `interface{}` result slot of a hydrate function: `nil`, an error
value returned in the item slot (the `return err, nil` pattern), or a
resource object. -/
inductive GoVal (α : Type) where
  | nil : GoVal α
  | errItem : String → GoVal α
  | obj : α → GoVal α
deriving Repr, DecidableEq

/-- The Go return pair `(interface{}, error)` of a hydrate function. -/
structure GoRet (α : Type) where
  val : GoVal α
  err : Option String
deriving Repr, DecidableEq

/-- How a list function returns a fetch error: `asErr` models
`return nil, err`, `asItem` models `return err, nil`. -/
inductive ErrStyle where
  | asErr : ErrStyle
  | asItem : ErrStyle
deriving Repr, DecidableEq

/-- Build the Go return pair for a fetch error under the given style. -/
def errRet (style : ErrStyle) (e : String) : GoRet α :=
  match style with
  | .asErr => ⟨.nil, some e⟩
  | .asItem => ⟨.errItem e, none⟩

/-- `d.RowsRemaining(ctx) == 0`: true iff the query has a limit and at least
that many rows have been streamed. With no limit the SDK never reports 0. -/
def rowsRemainingZero (limit : Option Nat) (streamed : Nat) : Bool :=
  match limit with
  | none => false
  | some n => n ≤ streamed

/-- The per-page streaming loop of a budget-checked list function
(`for _, x := range result.Values() { d.StreamListItem(ctx, x);
if d.RowsRemaining(ctx) == 0 { return nil, nil } }`).
Returns the new streamed-rows counter, the emitted events, and whether the
loop returned early because the budget was exhausted. -/
def streamPage (limit : Option Nat) : Nat → List α → Nat × List (Ev α) × Bool
  | streamed, [] => (streamed, [], false)
  | streamed, v :: vs =>
    let s := streamed + 1
    if rowsRemainingZero limit s then (s, [Ev.stream v], true)
    else
      let r := streamPage limit s vs
      (r.1, Ev.stream v :: r.2.1, r.2.2)

/-- The `for result.NotDone()` page loop shared by the paged list functions:
wait for the rate limit, issue `NextWithContext`, on error return in the
given style, else stream the page (with or without the `RowsRemaining`
check) and continue while `NotDone()`. The fetch list holds the outcomes of
the successive `NextWithContext` calls the provider would serve. -/
def pageLoop (check : Bool) (style : ErrStyle) (limit : Option Nat) :
    Nat → Bool → List (Fetch α) → Nat × List (Ev α) × GoRet α
  | streamed, false, _ => (streamed, [], ⟨.nil, none⟩)
  | streamed, true, [] => (streamed, [], ⟨.nil, none⟩)
  | streamed, true, f :: fs =>
    match f with
    | .error e => (streamed, [Ev.wait, Ev.next], errRet style e)
    | .ok pg =>
      if check then
        let r := streamPage limit streamed pg.values
        if r.2.2 then (r.1, Ev.wait :: Ev.next :: r.2.1, ⟨.nil, none⟩)
        else
          let l := pageLoop check style limit r.1 pg.notDone fs
          (l.1, Ev.wait :: Ev.next :: (r.2.1 ++ l.2.1), l.2.2)
      else
        let evs := pg.values.map Ev.stream
        let l := pageLoop check style limit (streamed + pg.values.length) pg.notDone fs
        (l.1, Ev.wait :: Ev.next :: (evs ++ l.2.1), l.2.2)

/-- Observable outcome of one hydrate-function run: the event trace and the
Go return pair. -/
structure RunOut (α : Type) where
  trace : List (Ev α)
  ret : GoRet α
deriving Repr, DecidableEq

/-- Common shape of the paged list functions: acquire a session, build the
client, apply the retry rules, issue the initial `List` call, stream the
first page, then run the `for result.NotDone()` loop. `check` records
whether the function checks `d.RowsRemaining` after each streamed item;
`initStyle`/`nextStyle` record how initial-fetch and next-page errors are
returned. -/
def runList (check : Bool) (initStyle nextStyle : ErrStyle) (limit : Option Nat)
    (session : Except String Unit) (init : Fetch α) (nexts : List (Fetch α)) :
    RunOut α :=
  match session with
  | .error e => ⟨[Ev.sessionReq], ⟨.nil, some e⟩⟩
  | .ok _ =>
    match init with
    | .error e => ⟨[Ev.sessionReq, Ev.applyRetry, Ev.listCall], errRet initStyle e⟩
    | .ok pg =>
      if check then
        let r := streamPage limit 0 pg.values
        if r.2.2 then
          ⟨[Ev.sessionReq, Ev.applyRetry, Ev.listCall] ++ r.2.1, ⟨.nil, none⟩⟩
        else
          let l := pageLoop true nextStyle limit r.1 pg.notDone nexts
          ⟨[Ev.sessionReq, Ev.applyRetry, Ev.listCall] ++ r.2.1 ++ l.2.1, l.2.2⟩
      else
        let evs := pg.values.map Ev.stream
        let l := pageLoop false nextStyle limit pg.values.length pg.notDone nexts
        ⟨[Ev.sessionReq, Ev.applyRetry, Ev.listCall] ++ evs ++ l.2.1, l.2.2⟩

/-- `listIamRoleDefinitions` (src/azure/table_azure_role_definition.go):
budget-checked streaming; both the initial `List` error and a
`NextWithContext` error are returned as `(nil, err)`. -/
def listIamRoleDefinitions (limit : Option Nat) (session : Except String Unit)
    (init : Fetch α) (nexts : List (Fetch α)) : RunOut α :=
  runList true .asErr .asErr limit session init nexts

/-- `listAppConfigurations` (src/azure/table_azure_app_configuration.go):
streams every item of every page with NO `RowsRemaining` check; both fetch
error kinds are returned as `(nil, err)`. -/
def listAppConfigurations (limit : Option Nat) (session : Except String Unit)
    (init : Fetch α) (nexts : List (Fetch α)) : RunOut α :=
  runList false .asErr .asErr limit session init nexts

/-- `listPolicyAssignments` (second file of
src/azure/table_azure_app_configuration.go's compilation unit): budget-checked
streaming; the initial `List` error is returned as `(err, nil)` (the error
value lands in the item slot), a `NextWithContext` error as `(nil, err)`. -/
def listPolicyAssignments (limit : Option Nat) (session : Except String Unit)
    (init : Fetch α) (nexts : List (Fetch α)) : RunOut α :=
  runList true .asItem .asErr limit session init nexts

/-- `listSecurityCenterAutoProvisioning`
(src/azure/table_azure_security_center_auto_provisioning.go): budget-checked
streaming; both the initial `List` error and a `NextWithContext` error are
returned as `(err, nil)`. -/
def listSecurityCenterAutoProvisioning (limit : Option Nat)
    (session : Except String Unit) (init : Fetch α) (nexts : List (Fetch α)) :
    RunOut α :=
  runList true .asItem .asItem limit session init nexts

/-- `listBackendAddressPools` (src/azure/table_azure_lb_backend_address_pool.go):
budget-checked streaming; fetch errors returned as `(nil, err)`. -/
def listBackendAddressPools (limit : Option Nat) (session : Except String Unit)
    (init : Fetch α) (nexts : List (Fetch α)) : RunOut α :=
  runList true .asErr .asErr limit session init nexts

/-- `listNetworkWatcherFlowLogs` (src/unnamed/part_002): budget-checked
streaming; fetch errors returned as `(nil, err)`. -/
def listNetworkWatcherFlowLogs (limit : Option Nat) (session : Except String Unit)
    (init : Fetch α) (nexts : List (Fetch α)) : RunOut α :=
  runList true .asErr .asErr limit session init nexts

/-- `listNetworkWatchers` (src/unnamed/part_001): a single non-paged
`ListAll` call; every returned item is streamed with the `RowsRemaining`
check; there is no page loop and no rate-limit wait. -/
def listNetworkWatchers (limit : Option Nat) (session : Except String Unit)
    (listAll : Except String (List α)) : RunOut α :=
  match session with
  | .error e => ⟨[Ev.sessionReq], ⟨.nil, some e⟩⟩
  | .ok _ =>
    match listAll with
    | .error e => ⟨[Ev.sessionReq, Ev.applyRetry, Ev.listCall], ⟨.nil, some e⟩⟩
    | .ok vs =>
      let r := streamPage limit 0 vs
      ⟨[Ev.sessionReq, Ev.applyRetry, Ev.listCall] ++ r.2.1, ⟨.nil, none⟩⟩

/-- The items streamed to the row sink during a run, in order. -/
def streamsOf : List (Ev α) → List α
  | [] => []
  | Ev.stream a :: t => a :: streamsOf t
  | _ :: t => streamsOf t

/-- Number of `NextWithContext` calls recorded in a trace. -/
def nextCount : List (Ev α) → Nat
  | [] => 0
  | Ev.next :: t => nextCount t + 1
  | _ :: t => nextCount t

/-- A provider resource object as far as the Get hydrates inspect it:
only the `ID` pointer (which may be nil) matters to the control flow. -/
structure AzureResource where
  id : Option String
deriving Repr, DecidableEq

/-- `getNetworkWatcher` (src/unnamed/part_001): acquire a session, apply the
retry rules, issue the provider Get; on error return `(nil, err)`; on a
successful reply whose `ID` is nil return `(nil, nil)` instead of the empty
object, otherwise return the object. (No empty-qual early return.) -/
def getNetworkWatcher (name resourceGroup : String) (session : Except String Unit)
    (get : Except String AzureResource) : RunOut AzureResource :=
  match session with
  | .error e => ⟨[Ev.sessionReq], ⟨.nil, some e⟩⟩
  | .ok _ =>
    match get with
    | .error e => ⟨[Ev.sessionReq, Ev.applyRetry, Ev.getCall], ⟨.nil, some e⟩⟩
    | .ok op =>
      if op.id.isSome then
        ⟨[Ev.sessionReq, Ev.applyRetry, Ev.getCall], ⟨.obj op, none⟩⟩
      else
        ⟨[Ev.sessionReq, Ev.applyRetry, Ev.getCall], ⟨.nil, none⟩⟩

/-- `getAppConfiguration` (src/azure/table_azure_app_configuration.go):
if the `name` or `resource_group` qual is empty return `(nil, nil)` before
creating a session or issuing any call; otherwise session, retry rules,
Get; `(nil, err)` on error; `(nil, nil)` when the reply's `ID` is nil. -/
def getAppConfiguration (name resourceGroup : String) (session : Except String Unit)
    (get : Except String AzureResource) : RunOut AzureResource :=
  if name = "" ∨ resourceGroup = "" then ⟨[], ⟨.nil, none⟩⟩
  else
    match session with
    | .error e => ⟨[Ev.sessionReq], ⟨.nil, some e⟩⟩
    | .ok _ =>
      match get with
      | .error e => ⟨[Ev.sessionReq, Ev.applyRetry, Ev.getCall], ⟨.nil, some e⟩⟩
      | .ok config =>
        if config.id.isSome then
          ⟨[Ev.sessionReq, Ev.applyRetry, Ev.getCall], ⟨.obj config, none⟩⟩
        else
          ⟨[Ev.sessionReq, Ev.applyRetry, Ev.getCall], ⟨.nil, none⟩⟩

/-- `getBackendAddressPool` (src/azure/table_azure_lb_backend_address_pool.go):
if any of the `load_balancer_name`, `name`, `resource_group` quals is empty,
return `(nil, nil)` before creating a session or issuing any call;
otherwise session, retry rules, Get; `(nil, err)` on error; `(nil, nil)`
when the reply's `ID` is nil. -/
def getBackendAddressPool (loadBalancerName name resourceGroup : String)
    (session : Except String Unit) (get : Except String AzureResource) :
    RunOut AzureResource :=
  if loadBalancerName = "" ∨ name = "" ∨ resourceGroup = "" then ⟨[], ⟨.nil, none⟩⟩
  else
    match session with
    | .error e => ⟨[Ev.sessionReq], ⟨.nil, some e⟩⟩
    | .ok _ =>
      match get with
      | .error e => ⟨[Ev.sessionReq, Ev.applyRetry, Ev.getCall], ⟨.nil, some e⟩⟩
      | .ok op =>
        if op.id.isSome then
          ⟨[Ev.sessionReq, Ev.applyRetry, Ev.getCall], ⟨.obj op, none⟩⟩
        else
          ⟨[Ev.sessionReq, Ev.applyRetry, Ev.getCall], ⟨.nil, none⟩⟩

/-- `getIamRoleDefinition` (src/azure/table_azure_role_definition.go):
session, retry rules, Get; `(nil, err)` on error, otherwise the object is
returned unconditionally (no nil-ID check). -/
def getIamRoleDefinition (name : String) (session : Except String Unit)
    (get : Except String AzureResource) : RunOut AzureResource :=
  match session with
  | .error e => ⟨[Ev.sessionReq], ⟨.nil, some e⟩⟩
  | .ok _ =>
    match get with
    | .error e => ⟨[Ev.sessionReq, Ev.applyRetry, Ev.getCall], ⟨.nil, some e⟩⟩
    | .ok op => ⟨[Ev.sessionReq, Ev.applyRetry, Ev.getCall], ⟨.obj op, none⟩⟩

/-- `getSecurityCenterAutoProvisioning`
(src/azure/table_azure_security_center_auto_provisioning.go): session, then
the provider Get is issued WITHOUT `ApplyRetryRules`; on error the function
returns `(err, nil)` (the error value in the item slot, nil error);
otherwise the object is returned unconditionally. -/
def getSecurityCenterAutoProvisioning (name : String) (session : Except String Unit)
    (get : Except String AzureResource) : RunOut AzureResource :=
  match session with
  | .error e => ⟨[Ev.sessionReq], ⟨.nil, some e⟩⟩
  | .ok _ =>
    match get with
    | .error e => ⟨[Ev.sessionReq, Ev.getCall], ⟨.errItem e, none⟩⟩
    | .ok op => ⟨[Ev.sessionReq, Ev.getCall], ⟨.obj op, none⟩⟩

/-- `isNotFoundError` — Modelled from the spec: the real helper lives in the
repository's utils file, which is not among the provided sources; per the
spec it reports whether an error's code belongs to the table's configured
ignore-list. Errors are identified by their code string here. -/
def isNotFoundError (ignoreList : List String) (code : String) : Bool :=
  ignoreList.contains code

/-- Modelled from the spec: the plugin host's IgnoreConfig machinery (part of
the steampipe plugin SDK, not among the provided sources). When a Get
hydrate returns an error whose code the table's ignore-list contains, the
host suppresses it to an empty result; any other outcome passes through. -/
def hostGetWithIgnore (ignoreList : List String) (r : GoRet α) : GoRet α :=
  match r.err with
  | some e => if isNotFoundError ignoreList e then ⟨.nil, none⟩ else r
  | none => r

/-- The ignore-list configured for `azure_role_definition`'s GetConfig
(src/azure/table_azure_role_definition.go). -/
def tableAzureRoleDefinitionIgnoreList : List String :=
  ["ResourceNotFound", "ResourceGroupNotFound"]

/-- The GetConfig of `azure_security_center_auto_provisioning`
(src/azure/table_azure_security_center_auto_provisioning.go) configures no
IgnoreConfig, so no error code is ignored for that table. -/
def tableAzureSecurityCenterAutoProvisioningIgnoreList : List String := []

/-- Go's `strings.Split(s, "/")` over the characters of a string: splits
around every '/' and keeps empty segments, returning the whole input as a
single segment when no '/' occurs ([""] for the empty string), exactly as
`strings.Split` does for a one-character separator. -/
def splitOnSlash : List Char → List (List Char)
  | [] => [[]]
  | c :: rest =>
    if c = '/' then [] :: splitOnSlash rest
    else
      match splitOnSlash rest with
      | [] => [[c]]
      | seg :: segs => (c :: seg) :: segs

/-- `splitOnSlash` always yields at least one segment, like `strings.Split`. -/
theorem splitOnSlash_ne_nil (cs : List Char) : splitOnSlash cs ≠ [] := by
  cases cs with
  | nil => simp [splitOnSlash]
  | cons c rest =>
    by_cases h : c = '/'
    · simp [splitOnSlash, h]
    · simp only [splitOnSlash, if_neg h]
      cases splitOnSlash rest <;> simp

/-- `extractLoadBalancerNameFromBackendAddressPoolID`
(src/azure/table_azure_lb_backend_address_pool.go):
`strings.Split(*data.ID, "/")[8]`. The Go code indexes segment 8 without a
bounds check; `none` models the out-of-bounds panic branch. -/
def extractLoadBalancerNameFromBackendAddressPoolID (id : String) : Option (List Char) :=
  (splitOnSlash id.data)[8]?

/-- The resource-group derivation inside `listBackendAddressPools`
(src/azure/table_azure_lb_backend_address_pool.go):
`strings.Split(*loadBalancer.ID, "/")[4]`; `none` models the panic branch. -/
def listBackendAddressPoolsResourceGroup (id : String) : Option (List Char) :=
  (splitOnSlash id.data)[4]?

/-- The resource-group derivation inside `listNetworkWatcherFlowLogs`
(src/unnamed/part_002): `strings.Split(*networkWatcherDetails.ID, "/")[4]`;
`none` models the panic branch. -/
def listNetworkWatcherFlowLogsResourceGroup (id : String) : Option (List Char) :=
  (splitOnSlash id.data)[4]?

/-- The pages the `for result.NotDone()` loop can reach: pages are consumed
in order until one reports `NotDone() = false`. `notDone` is the flag of the
page currently held by the iterator. -/
def pagesUntilDone : Bool → List (Page α) → List (Page α)
  | false, _ => []
  | true, [] => []
  | true, p :: ps => p :: pagesUntilDone p.notDone ps

/-- All items the provider makes reachable from an initial page `p0`
followed by next-pages `ps`, in page order. -/
def itemsAvail (p0 : Page α) (ps : List (Page α)) : List α :=
  p0.values ++ ((pagesUntilDone p0.notDone ps).map Page.values).flatten

/-- Truncation performed by the `RowsRemaining` check: with no limit
everything is streamed; with limit `n` the check fires only after an item
has been streamed, so `max n 1` items are taken. -/
def budgetTake (limit : Option Nat) (l : List α) : List α :=
  match limit with
  | none => l
  | some n => l.take (max n 1)

/-- Holds when every `NextWithContext` event of the trace is immediately
preceded by a `WaitForListRateLimit` event. -/
def waitBeforeNextAux : Bool → List (Ev α) → Bool
  | _, [] => true
  | prevWait, e :: t =>
    match e with
    | Ev.next => prevWait && waitBeforeNextAux false t
    | Ev.wait => waitBeforeNextAux true t
    | _ => waitBeforeNextAux false t

/-- Every `next` event in the trace has a `wait` event directly before it. -/
def waitBeforeNext (t : List (Ev α)) : Bool := waitBeforeNextAux false t

/-- Holds when no API-call event (`listCall`, `getCall`, `next`) occurs in
the trace before the first `applyRetry` event: the retry rules are applied
to the client before any outbound call is issued. -/
def retryBeforeCalls : List (Ev α) → Bool
  | [] => true
  | Ev.applyRetry :: _ => true
  | Ev.listCall :: _ => false
  | Ev.getCall :: _ => false
  | Ev.next :: _ => false
  | _ :: t => retryBeforeCalls t

theorem streamsOf_append (a b : List (Ev α)) :
    streamsOf (a ++ b) = streamsOf a ++ streamsOf b := by
  induction a with
  | nil => rfl
  | cons e t ih => cases e <;> simp [streamsOf, ih]

theorem streamsOf_map_stream (l : List α) :
    streamsOf (l.map Ev.stream) = l := by
  induction l with
  | nil => rfl
  | cons a t ih => simp [streamsOf, ih]

theorem nextCount_append (a b : List (Ev α)) :
    nextCount (a ++ b) = nextCount a + nextCount b := by
  induction a with
  | nil => simp [nextCount]
  | cons e t ih => cases e <;> simp [nextCount, ih] <;> omega

theorem nextCount_map_stream (l : List α) :
    nextCount (l.map Ev.stream) = 0 := by
  induction l with
  | nil => rfl
  | cons a t ih => simp [nextCount, ih]

theorem streamPage_none (vs : List α) :
    ∀ s : Nat, streamPage none s vs = (s + vs.length, vs.map Ev.stream, false) := by
  induction vs with
  | nil => intro s; simp [streamPage]
  | cons v t ih =>
    intro s
    simp [streamPage, rowsRemainingZero, ih (s + 1)]
    omega

theorem streamPage_some (n : Nat) (vs : List α) :
    ∀ s : Nat, s < n →
    streamPage (some n) s vs =
      (s + min (n - s) vs.length,
       (vs.take (min (n - s) vs.length)).map Ev.stream,
       decide (n - s ≤ vs.length)) := by
  induction vs with
  | nil =>
    intro s h
    simp [streamPage]
    omega
  | cons v t ih =>
    intro s h
    by_cases hc : n ≤ s + 1
    · have h1 : n - s = 1 := by omega
      have h2 : min (n - s) (t.length + 1) = 1 := by omega
      simp [streamPage, rowsRemainingZero, hc, h1, h2]
    · have h1 : s + 1 < n := by omega
      have h2 : min (n - s) (t.length + 1) = min (n - (s + 1)) t.length + 1 := by
        omega
      have h3 : decide (n - s ≤ t.length + 1) = decide (n - (s + 1) ≤ t.length) :=
        decide_eq_decide.mpr (by omega)
      simp [streamPage, rowsRemainingZero, hc, ih (s + 1) h1, h2, h3]
      omega

theorem streamPage_limit_max_one (n : Nat) (vs : List α) :
    ∀ s : Nat, streamPage (some n) s vs = streamPage (some (max n 1)) s vs := by
  induction vs with
  | nil => intro s; rfl
  | cons v t ih =>
    intro s
    have h : rowsRemainingZero (some n) (s + 1)
        = rowsRemainingZero (some (max n 1)) (s + 1) := by
      simp only [rowsRemainingZero]
      exact decide_eq_decide.mpr (by omega)
    simp [streamPage, h, ih (s + 1)]

theorem pageLoop_done (check : Bool) (style : ErrStyle) (limit : Option Nat)
    (s : Nat) (fs : List (Fetch α)) :
    pageLoop check style limit s false fs = (s, [], ⟨.nil, none⟩) := by
  cases fs <;> rfl

theorem pageLoop_nil (check : Bool) (style : ErrStyle) (limit : Option Nat)
    (s : Nat) (nd : Bool) :
    pageLoop check style limit s nd ([] : List (Fetch α)) = (s, [], ⟨.nil, none⟩) := by
  cases nd <;> rfl

theorem pageLoop_error (check : Bool) (style : ErrStyle) (limit : Option Nat)
    (s : Nat) (e : String) (fs : List (Fetch α)) :
    pageLoop check style limit s true (Except.error e :: fs)
      = (s, [Ev.wait, Ev.next], errRet style e) := rfl

theorem pageLoop_ok_unchecked (style : ErrStyle) (limit : Option Nat)
    (s : Nat) (pg : Page α) (fs : List (Fetch α)) :
    pageLoop false style limit s true (Except.ok pg :: fs) =
      ((pageLoop false style limit (s + pg.values.length) pg.notDone fs).1,
       Ev.wait :: Ev.next :: (pg.values.map Ev.stream
         ++ (pageLoop false style limit (s + pg.values.length) pg.notDone fs).2.1),
       (pageLoop false style limit (s + pg.values.length) pg.notDone fs).2.2) := rfl

theorem pageLoop_ok_checked_early (style : ErrStyle) (limit : Option Nat)
    (s : Nat) (pg : Page α) (fs : List (Fetch α))
    (he : (streamPage limit s pg.values).2.2 = true) :
    pageLoop true style limit s true (Except.ok pg :: fs) =
      ((streamPage limit s pg.values).1,
       Ev.wait :: Ev.next :: (streamPage limit s pg.values).2.1,
       ⟨.nil, none⟩) := by
  simp [pageLoop, he]

theorem pageLoop_ok_checked_more (style : ErrStyle) (limit : Option Nat)
    (s : Nat) (pg : Page α) (fs : List (Fetch α))
    (he : (streamPage limit s pg.values).2.2 = false) :
    pageLoop true style limit s true (Except.ok pg :: fs) =
      ((pageLoop true style limit (streamPage limit s pg.values).1 pg.notDone fs).1,
       Ev.wait :: Ev.next :: ((streamPage limit s pg.values).2.1
         ++ (pageLoop true style limit (streamPage limit s pg.values).1 pg.notDone fs).2.1),
       (pageLoop true style limit (streamPage limit s pg.values).1 pg.notDone fs).2.2) := by
  simp [pageLoop, he]

theorem pageLoop_checked_streams_none (style : ErrStyle) (ps : List (Page α)) :
    ∀ (s : Nat) (nd : Bool),
    streamsOf (pageLoop true style none s nd (ps.map Except.ok)).2.1 =
      ((pagesUntilDone nd ps).map Page.values).flatten := by
  induction ps with
  | nil =>
    intro s nd
    cases nd <;> simp [pageLoop, pagesUntilDone, streamsOf]
  | cons p ps ih =>
    intro s nd
    cases nd with
    | false => simp [pageLoop, pagesUntilDone, streamsOf]
    | true =>
      simp [pageLoop, streamPage_none, pagesUntilDone, streamsOf,
            streamsOf_append, streamsOf_map_stream, ih (s + p.values.length) p.notDone]

theorem pageLoop_checked_streams_some (style : ErrStyle) (n : Nat) (ps : List (Page α)) :
    ∀ (s : Nat) (nd : Bool), s < n →
    streamsOf (pageLoop true style (some n) s nd (ps.map Except.ok)).2.1 =
      (((pagesUntilDone nd ps).map Page.values).flatten).take (n - s) := by
  induction ps with
  | nil =>
    intro s nd _
    cases nd <;> simp [pageLoop, pagesUntilDone, streamsOf]
  | cons p ps ih =>
    intro s nd h
    cases nd with
    | false => simp [pageLoop, pagesUntilDone, streamsOf]
    | true =>
      by_cases hl : n - s ≤ p.values.length
      · have hmin : min (n - s) p.values.length = n - s := by omega
        have hz : n - s - p.values.length = 0 := by omega
        simp [pageLoop, streamPage_some n p.values s h, hl, hmin, pagesUntilDone,
              streamsOf, streamsOf_append, streamsOf_map_stream,
              List.take_append_eq_append_take, hz]
        rw [← List.map_take, streamsOf_map_stream]
      · have hmin : min (n - s) p.values.length = p.values.length := by omega
        have h1 : s + p.values.length < n := by omega
        have htk : p.values.take p.values.length = p.values := by
          exact List.take_of_length_le (Nat.le_refl _)
        simp [pageLoop, streamPage_some n p.values s h, hl, hmin, pagesUntilDone,
              streamsOf, streamsOf_append, streamsOf_map_stream, htk,
              ih (s + p.values.length) p.notDone h1,
              List.take_append_eq_append_take,
              List.take_of_length_le (le_of_lt (by omega : p.values.length < n - s))]
        omega

theorem pageLoop_unchecked_streams (style : ErrStyle) (limit : Option Nat)
    (ps : List (Page α)) :
    ∀ (s : Nat) (nd : Bool),
    streamsOf (pageLoop false style limit s nd (ps.map Except.ok)).2.1 =
      ((pagesUntilDone nd ps).map Page.values).flatten := by
  induction ps with
  | nil =>
    intro s nd
    cases nd <;> simp [pageLoop, pagesUntilDone, streamsOf]
  | cons p ps ih =>
    intro s nd
    cases nd with
    | false => simp [pageLoop, pagesUntilDone, streamsOf]
    | true =>
      simp [pageLoop, pagesUntilDone, streamsOf, streamsOf_append,
            streamsOf_map_stream, ih (s + p.values.length) p.notDone]

theorem streamPage_trace_shape (limit : Option Nat) (vs : List α) :
    ∀ s : Nat, ∃ l : List α, (streamPage limit s vs).2.1 = l.map Ev.stream := by
  induction vs with
  | nil => intro s; exact ⟨[], rfl⟩
  | cons v t ih =>
    intro s
    by_cases hc : rowsRemainingZero limit (s + 1) = true
    · exact ⟨[v], by simp [streamPage, hc]⟩
    · obtain ⟨l, hl⟩ := ih (s + 1)
      exact ⟨v :: l, by simp [streamPage, hc, hl]⟩

theorem waitBeforeNextAux_map_stream_append (l : List α) (t : List (Ev α)) :
    waitBeforeNextAux false (l.map Ev.stream ++ t) = waitBeforeNextAux false t := by
  induction l with
  | nil => rfl
  | cons a l ih => simp [waitBeforeNextAux, ih]

theorem waitBeforeNextAux_map_stream (l : List α) :
    waitBeforeNextAux false (l.map Ev.stream) = true := by
  have h := waitBeforeNextAux_map_stream_append l ([] : List (Ev α))
  simpa using h

theorem pageLoop_waitBeforeNext (check : Bool) (style : ErrStyle)
    (limit : Option Nat) (fs : List (Fetch α)) :
    ∀ (s : Nat) (nd : Bool),
    waitBeforeNextAux false (pageLoop check style limit s nd fs).2.1 = true := by
  induction fs with
  | nil => intro s nd; rw [pageLoop_nil]; rfl
  | cons f fs ih =>
    intro s nd
    cases nd with
    | false => rw [pageLoop_done]; rfl
    | true =>
      cases f with
      | error e => rw [pageLoop_error]; rfl
      | ok pg =>
        cases check with
        | false =>
          rw [pageLoop_ok_unchecked]
          simp only [waitBeforeNextAux, Bool.true_and]
          exact (waitBeforeNextAux_map_stream_append pg.values _).trans
            (ih (s + pg.values.length) pg.notDone)
        | true =>
          obtain ⟨l, hl⟩ := streamPage_trace_shape limit pg.values s
          by_cases he : (streamPage limit s pg.values).2.2 = true
          · rw [pageLoop_ok_checked_early style limit s pg fs he]
            simp only [waitBeforeNextAux, Bool.true_and, hl]
            exact waitBeforeNextAux_map_stream l
          · rw [pageLoop_ok_checked_more style limit s pg fs
                  (Bool.not_eq_true _ |>.mp he)]
            simp only [waitBeforeNextAux, Bool.true_and, hl]
            exact (waitBeforeNextAux_map_stream_append l _).trans
              (ih (streamPage limit s pg.values).1 pg.notDone)

theorem streamPage_nextCount (limit : Option Nat) (vs : List α) (s : Nat) :
    nextCount (streamPage limit s vs).2.1 = 0 := by
  obtain ⟨l, hl⟩ := streamPage_trace_shape limit vs s
  rw [hl, nextCount_map_stream]

theorem pageLoop_nextCount_le (check : Bool) (style : ErrStyle)
    (limit : Option Nat) (fs : List (Fetch α)) :
    ∀ (s : Nat) (nd : Bool),
    nextCount (pageLoop check style limit s nd fs).2.1 ≤ fs.length := by
  induction fs with
  | nil => intro s nd; cases nd <;> simp [pageLoop, nextCount]
  | cons f fs ih =>
    intro s nd
    cases nd with
    | false => simp [pageLoop, nextCount]
    | true =>
      cases f with
      | error e => rw [pageLoop_error]; simp [nextCount]
      | ok pg =>
        cases check with
        | false =>
          rw [pageLoop_ok_unchecked]
          simp only [nextCount, nextCount_append, nextCount_map_stream,
                     List.length_cons]
          have := ih (s + pg.values.length) pg.notDone
          omega
        | true =>
          by_cases he : (streamPage limit s pg.values).2.2 = true
          · rw [pageLoop_ok_checked_early style limit s pg fs he]
            simp only [nextCount, streamPage_nextCount, List.length_cons]
            omega
          · rw [pageLoop_ok_checked_more style limit s pg fs
                  (Bool.not_eq_true _ |>.mp he)]
            simp only [nextCount, nextCount_append, streamPage_nextCount,
                       List.length_cons]
            have := ih (streamPage limit s pg.values).1 pg.notDone
            omega

theorem pageLoop_checked_limit_max_one (style : ErrStyle) (n : Nat)
    (fs : List (Fetch α)) :
    ∀ (s : Nat) (nd : Bool),
    pageLoop true style (some n) s nd fs
      = pageLoop true style (some (max n 1)) s nd fs := by
  induction fs with
  | nil => intro s nd; rw [pageLoop_nil, pageLoop_nil]
  | cons f fs ih =>
    intro s nd
    cases nd with
    | false => rw [pageLoop_done, pageLoop_done]
    | true =>
      cases f with
      | error e => rw [pageLoop_error, pageLoop_error]
      | ok pg =>
        have hsp := streamPage_limit_max_one n pg.values s
        by_cases he : (streamPage (some n) s pg.values).2.2 = true
        · rw [pageLoop_ok_checked_early _ _ _ _ _ he,
              pageLoop_ok_checked_early _ _ _ _ _ (by rw [← hsp]; exact he), hsp]
        · have he' : (streamPage (some n) s pg.values).2.2 = false := by
            simpa using he
          rw [pageLoop_ok_checked_more _ _ _ _ _ he',
              pageLoop_ok_checked_more _ _ _ _ _ (by rw [← hsp]; exact he'), hsp,
              ih ((streamPage (some (max n 1)) s pg.values).1) pg.notDone]

theorem runList_session_error (check : Bool) (is ns : ErrStyle) (limit : Option Nat)
    (e : String) (init : Fetch α) (nexts : List (Fetch α)) :
    runList check is ns limit (Except.error e) init nexts
      = ⟨[Ev.sessionReq], ⟨.nil, some e⟩⟩ := rfl

theorem runList_init_error (check : Bool) (is ns : ErrStyle) (limit : Option Nat)
    (e : String) (nexts : List (Fetch α)) :
    runList check is ns limit (Except.ok ()) (Except.error e : Fetch α) nexts
      = ⟨[Ev.sessionReq, Ev.applyRetry, Ev.listCall], errRet is e⟩ := rfl

theorem runList_ok_checked_early (is ns : ErrStyle) (limit : Option Nat)
    (p0 : Page α) (nexts : List (Fetch α))
    (he : (streamPage limit 0 p0.values).2.2 = true) :
    runList true is ns limit (Except.ok ()) (Except.ok p0) nexts
      = ⟨Ev.sessionReq :: Ev.applyRetry :: Ev.listCall
           :: (streamPage limit 0 p0.values).2.1,
         ⟨.nil, none⟩⟩ := by
  simp [runList, he]

theorem runList_ok_checked_more (is ns : ErrStyle) (limit : Option Nat)
    (p0 : Page α) (nexts : List (Fetch α))
    (he : (streamPage limit 0 p0.values).2.2 = false) :
    runList true is ns limit (Except.ok ()) (Except.ok p0) nexts
      = ⟨Ev.sessionReq :: Ev.applyRetry :: Ev.listCall
           :: ((streamPage limit 0 p0.values).2.1
           ++ (pageLoop true ns limit (streamPage limit 0 p0.values).1 p0.notDone nexts).2.1),
         (pageLoop true ns limit (streamPage limit 0 p0.values).1 p0.notDone nexts).2.2⟩ := by
  simp [runList, he]

theorem runList_ok_unchecked (is ns : ErrStyle) (limit : Option Nat)
    (p0 : Page α) (nexts : List (Fetch α)) :
    runList false is ns limit (Except.ok ()) (Except.ok p0) nexts
      = ⟨Ev.sessionReq :: Ev.applyRetry :: Ev.listCall
           :: (p0.values.map Ev.stream
           ++ (pageLoop false ns limit p0.values.length p0.notDone nexts).2.1),
         (pageLoop false ns limit p0.values.length p0.notDone nexts).2.2⟩ := rfl

theorem runList_limit_max_one (is ns : ErrStyle) (n : Nat)
    (session : Except String Unit) (init : Fetch α) (nexts : List (Fetch α)) :
    runList true is ns (some n) session init nexts
      = runList true is ns (some (max n 1)) session init nexts := by
  cases session with
  | error e => rfl
  | ok _ =>
    cases init with
    | error e => rfl
    | ok p0 =>
      have hsp := streamPage_limit_max_one n p0.values 0
      by_cases he : (streamPage (some n) 0 p0.values).2.2 = true
      · rw [runList_ok_checked_early _ _ _ _ _ he,
            runList_ok_checked_early _ _ _ _ _ (by rw [← hsp]; exact he), hsp]
      · have he' : (streamPage (some n) 0 p0.values).2.2 = false := by simpa using he
        rw [runList_ok_checked_more _ _ _ _ _ he',
            runList_ok_checked_more _ _ _ _ _ (by rw [← hsp]; exact he'), hsp,
            pageLoop_checked_limit_max_one]

theorem runList_checked_streams_ge_one (is ns : ErrStyle) (n : Nat) (hn : 1 ≤ n)
    (p0 : Page α) (ps : List (Page α)) :
    streamsOf (runList true is ns (some n) (Except.ok ()) (Except.ok p0)
        (ps.map Except.ok)).trace
      = (itemsAvail p0 ps).take n := by
  have h0 : 0 < n := hn
  by_cases hl : n ≤ p0.values.length
  · have he : (streamPage (some n) 0 p0.values).2.2 = true := by
      rw [streamPage_some n p0.values 0 h0]
      simpa using hl
    rw [runList_ok_checked_early _ _ _ _ _ he,
        streamPage_some n p0.values 0 h0]
    have hmin : n ⊓ p0.values.length = n := by omega
    have hz : n - p0.values.length = 0 := by omega
    simp [itemsAvail, streamsOf, streamsOf_append, hmin,
          List.take_append_eq_append_take, hz]
    rw [← List.map_take, streamsOf_map_stream]
  · have he : (streamPage (some n) 0 p0.values).2.2 = false := by
      rw [streamPage_some n p0.values 0 h0]
      simpa using hl
    rw [runList_ok_checked_more _ _ _ _ _ he,
        streamPage_some n p0.values 0 h0]
    have hmin : n ⊓ p0.values.length = p0.values.length := by omega
    simp only [Nat.sub_zero, hmin, Nat.zero_add, List.take_length, streamsOf,
               streamsOf_append, streamsOf_map_stream]
    rw [pageLoop_checked_streams_some ns n ps p0.values.length p0.notDone (by omega)]
    simp [itemsAvail, streamsOf, List.take_append_eq_append_take,
          List.take_of_length_le (le_of_lt (by omega : p0.values.length < n))]

theorem runList_checked_streams (is ns : ErrStyle) (limit : Option Nat)
    (p0 : Page α) (ps : List (Page α)) :
    streamsOf (runList true is ns limit (Except.ok ()) (Except.ok p0)
        (ps.map Except.ok)).trace
      = budgetTake limit (itemsAvail p0 ps) := by
  cases limit with
  | none =>
    have he : (streamPage (none : Option Nat) 0 p0.values).2.2 = false := by
      rw [streamPage_none]
    rw [runList_ok_checked_more _ _ _ _ _ he, streamPage_none]
    simp [itemsAvail, budgetTake, streamsOf, streamsOf_append, streamsOf_map_stream,
          pageLoop_checked_streams_none ns ps]
  | some n =>
    rw [runList_limit_max_one,
        runList_checked_streams_ge_one is ns (max n 1) (by omega) p0 ps]
    rfl

theorem runList_unchecked_streams (is ns : ErrStyle) (limit : Option Nat)
    (p0 : Page α) (ps : List (Page α)) :
    streamsOf (runList false is ns limit (Except.ok ()) (Except.ok p0)
        (ps.map Except.ok)).trace
      = itemsAvail p0 ps := by
  rw [runList_ok_unchecked]
  simp [itemsAvail, streamsOf, streamsOf_append, streamsOf_map_stream,
        pageLoop_unchecked_streams ns limit ps]

theorem pageLoop_checked_streams_length_le (style : ErrStyle) (n : Nat)
    (fs : List (Fetch α)) :
    ∀ (s : Nat) (nd : Bool), s < n →
    (streamsOf (pageLoop true style (some n) s nd fs).2.1).length ≤ n - s := by
  induction fs with
  | nil =>
    intro s nd h
    rw [pageLoop_nil]
    simp [streamsOf]
  | cons f fs ih =>
    intro s nd h
    cases nd with
    | false => rw [pageLoop_done]; simp [streamsOf]
    | true =>
      cases f with
      | error e => rw [pageLoop_error]; simp [streamsOf]
      | ok pg =>
        by_cases hl : n - s ≤ pg.values.length
        · have he : (streamPage (some n) s pg.values).2.2 = true := by
            rw [streamPage_some n pg.values s h]; simpa using hl
          rw [pageLoop_ok_checked_early _ _ _ _ _ he,
              streamPage_some n pg.values s h]
          simp only [streamsOf]
          rw [streamsOf_map_stream]
          simp only [List.length_take]
          omega
        · have he : (streamPage (some n) s pg.values).2.2 = false := by
            rw [streamPage_some n pg.values s h]; simpa using hl
          rw [pageLoop_ok_checked_more _ _ _ _ _ he,
              streamPage_some n pg.values s h]
          have hmin : (n - s) ⊓ pg.values.length = pg.values.length := by omega
          simp only [hmin, List.take_length, streamsOf, streamsOf_append,
                     streamsOf_map_stream, List.length_append, List.length_map]
          have := ih (s + pg.values.length) pg.notDone (by omega)
          omega

theorem runList_checked_streams_length_le (is ns : ErrStyle) (n : Nat) (hn : 1 ≤ n)
    (session : Except String Unit) (init : Fetch α) (nexts : List (Fetch α)) :
    (streamsOf (runList true is ns (some n) session init nexts).trace).length ≤ n := by
  cases session with
  | error e => rw [runList_session_error]; simp [streamsOf]
  | ok u =>
    cases u
    cases init with
    | error e => rw [runList_init_error]; simp [streamsOf]
    | ok p0 =>
      by_cases hl : n ≤ p0.values.length
      · have he : (streamPage (some n) 0 p0.values).2.2 = true := by
          rw [streamPage_some n p0.values 0 (by omega)]; simpa using hl
        rw [runList_ok_checked_early _ _ _ _ _ he,
            streamPage_some n p0.values 0 (by omega)]
        simp only [streamsOf, streamsOf_append, List.nil_append]
        rw [streamsOf_map_stream]
        simp only [List.length_take]
        omega
      · have he : (streamPage (some n) 0 p0.values).2.2 = false := by
          rw [streamPage_some n p0.values 0 (by omega)]; simpa using hl
        rw [runList_ok_checked_more _ _ _ _ _ he,
            streamPage_some n p0.values 0 (by omega)]
        have hmin : (n - 0) ⊓ p0.values.length = p0.values.length := by omega
        simp only [hmin, List.take_length, streamsOf, streamsOf_append,
                   streamsOf_map_stream, List.length_append, List.length_map,
                   Nat.zero_add, List.nil_append]
        have hp := pageLoop_checked_streams_length_le ns n nexts
          p0.values.length p0.notDone (by omega)
        omega

theorem runList_nextCount_le (check : Bool) (is ns : ErrStyle) (limit : Option Nat)
    (session : Except String Unit) (init : Fetch α) (nexts : List (Fetch α)) :
    nextCount (runList check is ns limit session init nexts).trace ≤ nexts.length := by
  cases session with
  | error e => rw [runList_session_error]; simp [nextCount]
  | ok u =>
    cases u
    cases init with
    | error e => rw [runList_init_error]; simp [nextCount]
    | ok p0 =>
      cases check with
      | false =>
        rw [runList_ok_unchecked]
        have hp := pageLoop_nextCount_le false ns limit nexts p0.values.length p0.notDone
        simpa [nextCount, nextCount_append, nextCount_map_stream] using hp
      | true =>
        by_cases he : (streamPage limit 0 p0.values).2.2 = true
        · rw [runList_ok_checked_early _ _ _ _ _ he]
          simp [nextCount, nextCount_append, streamPage_nextCount]
        · rw [runList_ok_checked_more _ _ _ _ _ (by simpa using he)]
          have hp := pageLoop_nextCount_le true ns limit nexts
            (streamPage limit 0 p0.values).1 p0.notDone
          simpa [nextCount, nextCount_append, streamPage_nextCount] using hp

theorem pageLoop_nextCount_done (check : Bool) (style : ErrStyle)
    (pages1 : List (List α)) (vs' : List α) (ns2 : List (Fetch α)) :
    ∀ s : Nat,
    nextCount (pageLoop check style none s true
      ((pages1.map fun w => Except.ok (Page.mk w true))
        ++ Except.ok (Page.mk vs' false) :: ns2)).2.1
      = pages1.length + 1 := by
  induction pages1 with
  | nil =>
    intro s
    cases check with
    | false =>
      rw [List.map_nil, List.nil_append, pageLoop_ok_unchecked]
      simp [pageLoop_done, nextCount, nextCount_append, nextCount_map_stream]
    | true =>
      have he : (streamPage (none : Option Nat) s vs').2.2 = false := by
        rw [streamPage_none]
      rw [List.map_nil, List.nil_append,
          pageLoop_ok_checked_more style none s (Page.mk vs' false) ns2 he]
      simp [pageLoop_done, nextCount, nextCount_append, streamPage_nextCount]
  | cons w pages1 ih =>
    intro s
    cases check with
    | false =>
      rw [List.map_cons, List.cons_append, pageLoop_ok_unchecked]
      simp only [nextCount, nextCount_append, nextCount_map_stream]
      rw [ih]
      simp
    | true =>
      have he : (streamPage (none : Option Nat) s w).2.2 = false := by
        rw [streamPage_none]
      rw [List.map_cons, List.cons_append,
          pageLoop_ok_checked_more style none s (Page.mk w true) _ he]
      simp only [nextCount, nextCount_append, streamPage_nextCount]
      rw [ih]
      simp

theorem runList_checked_done_stop (is ns : ErrStyle) (vs : List α)
    (pages1 : List (List α)) (vs' : List α) (ns2 : List (Fetch α)) :
    nextCount (runList true is ns none (Except.ok ()) (Except.ok (Page.mk vs true))
      ((pages1.map fun w => Except.ok (Page.mk w true))
        ++ Except.ok (Page.mk vs' false) :: ns2)).trace
      = pages1.length + 1 := by
  have he : (streamPage (none : Option Nat) 0 vs).2.2 = false := by
    rw [streamPage_none]
  rw [runList_ok_checked_more _ _ _ _ _ he]
  simp only [nextCount, nextCount_append, streamPage_nextCount]
  rw [pageLoop_nextCount_done]
  simp

theorem runList_checked_budget_stop (is ns : ErrStyle) (n : Nat) (vs0 : List α)
    (nd0 : Bool) (nexts : List (Fetch α)) (hn : 1 ≤ n) (hlen : n ≤ vs0.length) :
    nextCount (runList true is ns (some n) (Except.ok ())
      (Except.ok (Page.mk vs0 nd0)) nexts).trace = 0 := by
  have he : (streamPage (some n) 0 (Page.mk vs0 nd0).values).2.2 = true := by
    rw [streamPage_some n _ 0 (by omega)]
    simpa using hlen
  rw [runList_ok_checked_early _ _ _ _ _ he]
  simp [nextCount, nextCount_append, streamPage_nextCount]

theorem runList_waitBeforeNext (check : Bool) (is ns : ErrStyle) (limit : Option Nat)
    (session : Except String Unit) (init : Fetch α) (nexts : List (Fetch α)) :
    waitBeforeNext (runList check is ns limit session init nexts).trace = true := by
  cases session with
  | error e => rfl
  | ok u =>
    cases u
    cases init with
    | error e => rfl
    | ok p0 =>
      cases check with
      | false =>
        rw [runList_ok_unchecked]
        show waitBeforeNextAux false
          (Ev.sessionReq :: Ev.applyRetry :: Ev.listCall ::
            (p0.values.map Ev.stream ++ _)) = true
        simp only [waitBeforeNextAux]
        rw [waitBeforeNextAux_map_stream_append]
        exact pageLoop_waitBeforeNext false ns limit nexts p0.values.length p0.notDone
      | true =>
        obtain ⟨l, hl⟩ := streamPage_trace_shape limit p0.values 0
        by_cases he : (streamPage limit 0 p0.values).2.2 = true
        · rw [runList_ok_checked_early _ _ _ _ _ he]
          show waitBeforeNextAux false
            (Ev.sessionReq :: Ev.applyRetry :: Ev.listCall ::
              (streamPage limit 0 p0.values).2.1) = true
          simp only [waitBeforeNextAux, hl]
          exact waitBeforeNextAux_map_stream l
        · rw [runList_ok_checked_more _ _ _ _ _ (by simpa using he)]
          show waitBeforeNextAux false
            (Ev.sessionReq :: Ev.applyRetry :: Ev.listCall ::
              ((streamPage limit 0 p0.values).2.1 ++ _)) = true
          simp only [waitBeforeNextAux, hl]
          rw [waitBeforeNextAux_map_stream_append]
          exact pageLoop_waitBeforeNext true ns limit nexts
            (streamPage limit 0 p0.values).1 p0.notDone

theorem runList_trace_take_three (check : Bool) (is ns : ErrStyle)
    (limit : Option Nat) (init : Fetch α) (nexts : List (Fetch α)) :
    (runList check is ns limit (Except.ok ()) init nexts).trace.take 3
      = [Ev.sessionReq, Ev.applyRetry, Ev.listCall] := by
  cases init with
  | error e => rfl
  | ok p0 =>
    cases check with
    | false => rw [runList_ok_unchecked]; rfl
    | true =>
      by_cases he : (streamPage limit 0 p0.values).2.2 = true
      · rw [runList_ok_checked_early _ _ _ _ _ he]; rfl
      · rw [runList_ok_checked_more _ _ _ _ _ (by simpa using he)]; rfl

theorem runList_retryBeforeCalls (check : Bool) (is ns : ErrStyle)
    (limit : Option Nat) (session : Except String Unit) (init : Fetch α)
    (nexts : List (Fetch α)) :
    retryBeforeCalls (runList check is ns limit session init nexts).trace = true := by
  cases session with
  | error e => rfl
  | ok u =>
    cases u
    cases init with
    | error e => rfl
    | ok p0 =>
      cases check with
      | false => rw [runList_ok_unchecked]; rfl
      | true =>
        by_cases he : (streamPage limit 0 p0.values).2.2 = true
        · rw [runList_ok_checked_early _ _ _ _ _ he]; rfl
        · rw [runList_ok_checked_more _ _ _ _ _ (by simpa using he)]; rfl

theorem listNetworkWatchers_streams (limit : Option Nat) (vs : List α) :
    streamsOf (listNetworkWatchers limit (Except.ok ()) (Except.ok vs)).trace
      = budgetTake limit vs := by
  cases limit with
  | none =>
    simp [listNetworkWatchers, streamPage_none, budgetTake, streamsOf,
          streamsOf_append, streamsOf_map_stream]
  | some n =>
    have h0 : (0:Nat) < max n 1 := by omega
    simp only [listNetworkWatchers, streamPage_limit_max_one n vs 0,
               streamPage_some (max n 1) vs 0 h0, budgetTake]
    by_cases hl : max n 1 ≤ vs.length
    · simp [streamsOf, streamsOf_append, streamsOf_map_stream]
      rw [← List.map_take, streamsOf_map_stream,
          (by omega : (max n 1) ⊓ vs.length = max n 1)]
    · simp [streamsOf, streamsOf_append, streamsOf_map_stream,
            List.take_of_length_le (by omega : vs.length ≤ max n 1)]
      rw [← List.map_take, streamsOf_map_stream,
          (by omega : (max n 1) ⊓ vs.length = vs.length), List.take_length]

theorem listNetworkWatchers_streams_length_le (n : Nat) (hn : 1 ≤ n)
    (session : Except String Unit) (listAll : Except String (List α)) :
    (streamsOf (listNetworkWatchers (some n) session listAll).trace).length ≤ n := by
  cases session with
  | error e => simp [listNetworkWatchers, streamsOf]
  | ok u =>
    cases u
    cases listAll with
    | error e => simp [listNetworkWatchers, streamsOf]
    | ok vs =>
      simp only [listNetworkWatchers, streamPage_some n vs 0 (by omega)]
      simp [streamsOf, streamsOf_append, streamsOf_map_stream]
      rw [← List.map_take, streamsOf_map_stream]
      simp only [List.length_take]
      omega

theorem listNetworkWatchers_no_next (limit : Option Nat)
    (session : Except String Unit) (listAll : Except String (List α)) :
    waitBeforeNext (listNetworkWatchers limit session listAll).trace = true
    ∧ nextCount (listNetworkWatchers limit session listAll).trace = 0 := by
  cases session with
  | error e => exact ⟨rfl, rfl⟩
  | ok u =>
    cases u
    cases listAll with
    | error e => exact ⟨rfl, rfl⟩
    | ok vs =>
      obtain ⟨l, hl⟩ := streamPage_trace_shape limit vs 0
      constructor
      · show waitBeforeNextAux false
          (Ev.sessionReq :: Ev.applyRetry :: Ev.listCall
            :: (streamPage limit 0 vs).2.1) = true
        simp only [waitBeforeNextAux, hl]
        exact waitBeforeNextAux_map_stream l
      · show nextCount
          (Ev.sessionReq :: Ev.applyRetry :: Ev.listCall
            :: (streamPage limit 0 vs).2.1) = 0
        simp only [nextCount, streamPage_nextCount]

theorem listNetworkWatchers_retryBeforeCalls (limit : Option Nat)
    (session : Except String Unit) (listAll : Except String (List α)) :
    retryBeforeCalls (listNetworkWatchers limit session listAll).trace = true := by
  cases session with
  | error e => rfl
  | ok u =>
    cases u
    cases listAll with
    | error e => rfl
    | ok vs => rfl

theorem getIamRoleDefinition_retryBeforeCalls (name : String)
    (session : Except String Unit) (g : Except String AzureResource) :
    retryBeforeCalls (getIamRoleDefinition name session g).trace = true := by
  cases session with
  | error e => rfl
  | ok u =>
    cases u
    cases g with
    | error e => rfl
    | ok op => rfl

theorem getNetworkWatcher_retryBeforeCalls (name rg : String)
    (session : Except String Unit) (g : Except String AzureResource) :
    retryBeforeCalls (getNetworkWatcher name rg session g).trace = true := by
  cases session with
  | error e => rfl
  | ok u =>
    cases u
    cases g with
    | error e => rfl
    | ok op =>
      cases op with
      | mk oid => cases oid <;> rfl

theorem getAppConfiguration_retryBeforeCalls (name rg : String)
    (session : Except String Unit) (g : Except String AzureResource) :
    retryBeforeCalls (getAppConfiguration name rg session g).trace = true := by
  by_cases h : name = "" ∨ rg = ""
  · simp only [getAppConfiguration, if_pos h]
    rfl
  · simp only [getAppConfiguration, if_neg h]
    cases session with
    | error e => rfl
    | ok u =>
      cases u
      cases g with
      | error e => rfl
      | ok op =>
        cases op with
        | mk oid => cases oid <;> rfl

theorem getBackendAddressPool_retryBeforeCalls (lb name rg : String)
    (session : Except String Unit) (g : Except String AzureResource) :
    retryBeforeCalls (getBackendAddressPool lb name rg session g).trace = true := by
  by_cases h : lb = "" ∨ name = "" ∨ rg = ""
  · simp only [getBackendAddressPool, if_pos h]
    rfl
  · simp only [getBackendAddressPool, if_neg h]
    cases session with
    | error e => rfl
    | ok u =>
      cases u
      cases g with
      | error e => rfl
      | ok op =>
        cases op with
        | mk oid => cases oid <;> rfl

theorem runList_unchecked_done_stop (is ns : ErrStyle) (vs : List α)
    (pages1 : List (List α)) (vs' : List α) (ns2 : List (Fetch α)) :
    nextCount (runList false is ns none (Except.ok ()) (Except.ok (Page.mk vs true))
      ((pages1.map fun w => Except.ok (Page.mk w true))
        ++ Except.ok (Page.mk vs' false) :: ns2)).trace
      = pages1.length + 1 := by
  rw [runList_ok_unchecked]
  simp only [nextCount, nextCount_append, nextCount_map_stream]
  rw [pageLoop_nextCount_done]
  simp

/-- Claim C1 counterexample: `listAppConfigurations` never checks
`d.RowsRemaining`, so with a row budget of 1 it streams both items of a
two-item first page — more rows than the budget, contradicting the claim
that every list operation emits at most the requested number of rows and
checks the budget after each item. -/
theorem C1_listAppConfigurations_exceeds_budget :
    streamsOf (listAppConfigurations (some 1) (Except.ok ())
        (Except.ok (Page.mk [1, 2] false)) ([] : List (Fetch Nat))).trace = [1, 2]
    ∧ ¬ ((streamsOf (listAppConfigurations (some 1) (Except.ok ())
        (Except.ok (Page.mk [1, 2] false)) ([] : List (Fetch Nat))).trace).length ≤ 1) :=
  ⟨rfl, by decide⟩

/-- Claim C1 (amended): for every row budget n ≥ 1, the budget-checked list
functions (`listIamRoleDefinitions`, `listPolicyAssignments`,
`listSecurityCenterAutoProvisioning`, `listBackendAddressPools`,
`listNetworkWatcherFlowLogs`, `listNetworkWatchers`) emit at most n rows —
they check `RowsRemaining` after each emitted item and return once it
reaches 0 — while `listAppConfigurations` emits every item of every fetched
page regardless of the budget. -/
theorem C1_budget_respected_except_listAppConfigurations
    (n : Nat) (hn : 1 ≤ n) (session : Except String Unit) :
    (∀ (init : Fetch Nat) (nexts : List (Fetch Nat)),
      (streamsOf (listIamRoleDefinitions (some n) session init nexts).trace).length ≤ n
      ∧ (streamsOf (listPolicyAssignments (some n) session init nexts).trace).length ≤ n
      ∧ (streamsOf (listSecurityCenterAutoProvisioning (some n)
          session init nexts).trace).length ≤ n
      ∧ (streamsOf (listBackendAddressPools (some n) session init nexts).trace).length ≤ n
      ∧ (streamsOf (listNetworkWatcherFlowLogs (some n)
          session init nexts).trace).length ≤ n)
    ∧ (∀ listAll : Except String (List Nat),
      (streamsOf (listNetworkWatchers (some n) session listAll).trace).length ≤ n)
    ∧ (∀ (p0 : Page Nat) (ps : List (Page Nat)),
      streamsOf (listAppConfigurations (some n) (Except.ok ())
        (Except.ok p0) (ps.map Except.ok)).trace = itemsAvail p0 ps) := by
  refine ⟨fun init nexts => ⟨?_, ?_, ?_, ?_, ?_⟩, fun listAll => ?_, fun p0 ps => ?_⟩
  · exact runList_checked_streams_length_le _ _ n hn session init nexts
  · exact runList_checked_streams_length_le _ _ n hn session init nexts
  · exact runList_checked_streams_length_le _ _ n hn session init nexts
  · exact runList_checked_streams_length_le _ _ n hn session init nexts
  · exact runList_checked_streams_length_le _ _ n hn session init nexts
  · exact listNetworkWatchers_streams_length_le n hn session listAll
  · exact runList_unchecked_streams _ _ (some n) p0 ps

/-- Witness for the amended C1 theorem at a concrete input. -/
theorem C1_budget_respected_witness :
    (1 : Nat) ≤ 1
    ∧ (streamsOf (listIamRoleDefinitions (some 1) (Except.ok ())
        (Except.ok (Page.mk [7, 8] false))
        ([] : List (Fetch Nat))).trace).length ≤ 1 :=
  ⟨by decide,
   ((C1_budget_respected_except_listAppConfigurations 1 (by decide) (Except.ok ())).1
     (Except.ok (Page.mk [7, 8] false)) []).1⟩

/-- Claim C2: contradicted by the code. On a failed initial `List` fetch,
`listSecurityCenterAutoProvisioning` and `listPolicyAssignments` execute
`return err, nil`: the fetch error comes back as the item value with a nil
error, so it is NOT propagated as the function's error return value (the
caller sees success). `listSecurityCenterAutoProvisioning` does the same for
`NextWithContext` errors. The sibling `listIamRoleDefinitions` propagates
the error as the claim describes. -/
theorem C2_fetch_error_swallowed :
    (listSecurityCenterAutoProvisioning none (Except.ok ())
        (Except.error "ServerTimeout") ([] : List (Fetch Nat))).ret
      = ⟨GoVal.errItem "ServerTimeout", none⟩
    ∧ (listPolicyAssignments none (Except.ok ())
        (Except.error "ServerTimeout") ([] : List (Fetch Nat))).ret
      = ⟨GoVal.errItem "ServerTimeout", none⟩
    ∧ (listSecurityCenterAutoProvisioning none (Except.ok ())
        (Except.ok (Page.mk ([3] : List Nat) true)) [Except.error "ServerTimeout"]).ret
      = ⟨GoVal.errItem "ServerTimeout", none⟩
    ∧ (listIamRoleDefinitions none (Except.ok ())
        (Except.error "ServerTimeout") ([] : List (Fetch Nat))).ret
      = ⟨GoVal.nil, some "ServerTimeout"⟩ :=
  ⟨rfl, rfl, rfl, rfl⟩

/-- Claim C3 counterexample: `getSecurityCenterAutoProvisioning` issues its
provider Get without ever applying the retry rules: its trace contains the
`getCall` but no `applyRetry` event. -/
theorem C3_getSecurityCenterAutoProvisioning_no_retry :
    (getSecurityCenterAutoProvisioning "setting" (Except.ok ())
        (Except.ok ⟨some "id1"⟩)).trace = [Ev.sessionReq, Ev.getCall]
    ∧ retryBeforeCalls (getSecurityCenterAutoProvisioning "setting" (Except.ok ())
        (Except.ok ⟨some "id1"⟩)).trace = false :=
  ⟨rfl, rfl⟩

/-- Claim C3 (amended): every modelled List function, and every modelled Get
function except `getSecurityCenterAutoProvisioning`, applies the retry rules
to its API client before issuing any outbound call (no `listCall`, `getCall`
or `next` event precedes the `applyRetry` event in any trace);
`getSecurityCenterAutoProvisioning` issues its Get without applying them. -/
theorem C3_retry_applied_before_calls :
    (∀ (limit : Option Nat) (session : Except String Unit) (init : Fetch Nat)
        (nexts : List (Fetch Nat)),
      retryBeforeCalls (listIamRoleDefinitions limit session init nexts).trace = true
      ∧ retryBeforeCalls (listAppConfigurations limit session init nexts).trace = true
      ∧ retryBeforeCalls (listPolicyAssignments limit session init nexts).trace = true
      ∧ retryBeforeCalls (listSecurityCenterAutoProvisioning limit
          session init nexts).trace = true
      ∧ retryBeforeCalls (listBackendAddressPools limit session init nexts).trace = true
      ∧ retryBeforeCalls (listNetworkWatcherFlowLogs limit
          session init nexts).trace = true)
    ∧ (∀ (limit : Option Nat) (session : Except String Unit)
        (listAll : Except String (List Nat)),
      retryBeforeCalls (listNetworkWatchers limit session listAll).trace = true)
    ∧ (∀ (lb name rg : String) (session : Except String Unit)
        (g : Except String AzureResource),
      retryBeforeCalls (getIamRoleDefinition name session g).trace = true
      ∧ retryBeforeCalls (getAppConfiguration name rg session g).trace = true
      ∧ retryBeforeCalls (getNetworkWatcher name rg session g).trace = true
      ∧ retryBeforeCalls (getBackendAddressPool lb name rg session g).trace = true) := by
  refine ⟨fun limit session init nexts => ⟨?_, ?_, ?_, ?_, ?_, ?_⟩,
          fun limit session listAll => ?_,
          fun lb name rg session g => ⟨?_, ?_, ?_, ?_⟩⟩
  · exact runList_retryBeforeCalls _ _ _ limit session init nexts
  · exact runList_retryBeforeCalls _ _ _ limit session init nexts
  · exact runList_retryBeforeCalls _ _ _ limit session init nexts
  · exact runList_retryBeforeCalls _ _ _ limit session init nexts
  · exact runList_retryBeforeCalls _ _ _ limit session init nexts
  · exact runList_retryBeforeCalls _ _ _ limit session init nexts
  · exact listNetworkWatchers_retryBeforeCalls limit session listAll
  · exact getIamRoleDefinition_retryBeforeCalls name session g
  · exact getAppConfiguration_retryBeforeCalls name rg session g
  · exact getNetworkWatcher_retryBeforeCalls name rg session g
  · exact getBackendAddressPool_retryBeforeCalls lb name rg session g

/-- Claim C4: contradicted by `getSecurityCenterAutoProvisioning`. Its table
configures no ignore-list, yet a provider error whose code
("AccessDenied") is in no ignore-list is not propagated as the Get's error
result: the function returns it as the item value with a nil error, so the
host's ignore machinery sees a success and the error is lost. For
comparison, `getIamRoleDefinition` with its table's ignore-list behaves
exactly as the claim says: a listed code is suppressed to an empty result,
an unlisted code propagates as the error. -/
theorem C4_get_error_not_propagated :
    hostGetWithIgnore tableAzureSecurityCenterAutoProvisioningIgnoreList
        (getSecurityCenterAutoProvisioning "s" (Except.ok ())
          (Except.error "AccessDenied")).ret
      = ⟨GoVal.errItem "AccessDenied", none⟩
    ∧ hostGetWithIgnore tableAzureSecurityCenterAutoProvisioningIgnoreList
        (getSecurityCenterAutoProvisioning "s" (Except.ok ())
          (Except.error "AccessDenied")).ret
      ≠ ⟨GoVal.nil, some "AccessDenied"⟩
    ∧ hostGetWithIgnore tableAzureRoleDefinitionIgnoreList
        (getIamRoleDefinition "r" (Except.ok ()) (Except.error "AccessDenied")).ret
      = ⟨GoVal.nil, some "AccessDenied"⟩
    ∧ hostGetWithIgnore tableAzureRoleDefinitionIgnoreList
        (getIamRoleDefinition "r" (Except.ok ())
          (Except.error "ResourceNotFound")).ret
      = ⟨GoVal.nil, none⟩ := by
  refine ⟨by decide, by decide, by decide, by decide⟩

/-- Claim C5 counterexample: `listAppConfigurations` with a budget of 1
(already exhausted by the first item of the first page) still waits and
fetches the next page — one `NextWithContext` call instead of the zero the
claim predicts — and streams every item. -/
theorem C5_listAppConfigurations_loop_ignores_budget :
    nextCount (listAppConfigurations (some 1) (Except.ok ())
        (Except.ok (Page.mk [1, 2] true)) [Except.ok (Page.mk [3] false)]).trace = 1
    ∧ streamsOf (listAppConfigurations (some 1) (Except.ok ())
        (Except.ok (Page.mk [1, 2] true)) [Except.ok (Page.mk [3] false)]).trace
      = [1, 2, 3] :=
  ⟨rfl, rfl⟩

/-- Claim C5 (amended): the number of `NextWithContext` calls of a list run
never exceeds the number of fetch outcomes the pager can serve (finite pager
⇒ termination); a budget-checked loop stops as soon as a page reports
`NotDone() = false` (exactly one fetch past each still-not-done page) and
performs no next-page fetch at all when the budget is exhausted within the
first page; `listAppConfigurations` stops at `NotDone() = false` only. -/
theorem C5_loop_runs_until_done_or_budget :
    (∀ (limit : Option Nat) (session : Except String Unit) (init : Fetch Nat)
        (nexts : List (Fetch Nat)),
      nextCount (listIamRoleDefinitions limit session init nexts).trace ≤ nexts.length
      ∧ nextCount (listNetworkWatcherFlowLogs limit
          session init nexts).trace ≤ nexts.length
      ∧ nextCount (listAppConfigurations limit session init nexts).trace ≤ nexts.length)
    ∧ (∀ (vs vs' : List Nat) (pages1 : List (List Nat)) (ns2 : List (Fetch Nat)),
      nextCount (listIamRoleDefinitions none (Except.ok ())
        (Except.ok (Page.mk vs true))
        ((pages1.map fun w => Except.ok (Page.mk w true))
          ++ Except.ok (Page.mk vs' false) :: ns2)).trace = pages1.length + 1
      ∧ nextCount (listAppConfigurations none (Except.ok ())
        (Except.ok (Page.mk vs true))
        ((pages1.map fun w => Except.ok (Page.mk w true))
          ++ Except.ok (Page.mk vs' false) :: ns2)).trace = pages1.length + 1)
    ∧ (∀ (n : Nat) (vs0 : List Nat) (nd0 : Bool) (nexts : List (Fetch Nat)),
      1 ≤ n → n ≤ vs0.length →
      nextCount (listIamRoleDefinitions (some n) (Except.ok ())
        (Except.ok (Page.mk vs0 nd0)) nexts).trace = 0) := by
  refine ⟨fun limit session init nexts => ⟨?_, ?_, ?_⟩,
          fun vs vs' pages1 ns2 => ⟨?_, ?_⟩,
          fun n vs0 nd0 nexts hn hlen => ?_⟩
  · exact runList_nextCount_le true _ _ limit session init nexts
  · exact runList_nextCount_le true _ _ limit session init nexts
  · exact runList_nextCount_le false _ _ limit session init nexts
  · exact runList_checked_done_stop _ _ vs pages1 vs' ns2
  · exact runList_unchecked_done_stop _ _ vs pages1 vs' ns2
  · exact runList_checked_budget_stop _ _ n vs0 nd0 nexts hn hlen

/-- Witness for the amended C5 theorem at concrete inputs. -/
theorem C5_loop_runs_until_done_or_budget_witness :
    (1 : Nat) ≤ 1 ∧ 1 ≤ ([5, 6] : List Nat).length
    ∧ nextCount (listIamRoleDefinitions (some 1) (Except.ok ())
        (Except.ok (Page.mk ([5, 6] : List Nat) true))
        [Except.ok (Page.mk [9] false)]).trace = 0 :=
  ⟨by decide, by decide,
   C5_loop_runs_until_done_or_budget.2.2 1 [5, 6] true
     [Except.ok (Page.mk [9] false)] (by decide) (by decide)⟩

/-- Claim C6: in every modelled list function each `NextWithContext` call is
immediately preceded by a `WaitForListRateLimit` call, and the initial
`List` call is issued right after session setup and retry-rule application
with no wait before it; `listNetworkWatchers` performs no wait and no
next-page fetch at all. -/
theorem C6_wait_before_every_next_fetch :
    (∀ (limit : Option Nat) (session : Except String Unit) (init : Fetch Nat)
        (nexts : List (Fetch Nat)),
      waitBeforeNext (listIamRoleDefinitions limit session init nexts).trace = true
      ∧ waitBeforeNext (listAppConfigurations limit session init nexts).trace = true
      ∧ waitBeforeNext (listPolicyAssignments limit session init nexts).trace = true
      ∧ waitBeforeNext (listSecurityCenterAutoProvisioning limit
          session init nexts).trace = true
      ∧ waitBeforeNext (listBackendAddressPools limit session init nexts).trace = true
      ∧ waitBeforeNext (listNetworkWatcherFlowLogs limit
          session init nexts).trace = true)
    ∧ (∀ (limit : Option Nat) (init : Fetch Nat) (nexts : List (Fetch Nat)),
      (listIamRoleDefinitions limit (Except.ok ()) init nexts).trace.take 3
        = [Ev.sessionReq, Ev.applyRetry, Ev.listCall]
      ∧ (listAppConfigurations limit (Except.ok ()) init nexts).trace.take 3
        = [Ev.sessionReq, Ev.applyRetry, Ev.listCall]
      ∧ (listNetworkWatcherFlowLogs limit (Except.ok ()) init nexts).trace.take 3
        = [Ev.sessionReq, Ev.applyRetry, Ev.listCall])
    ∧ (∀ (limit : Option Nat) (session : Except String Unit)
        (listAll : Except String (List Nat)),
      waitBeforeNext (listNetworkWatchers limit session listAll).trace = true
      ∧ nextCount (listNetworkWatchers limit session listAll).trace = 0) := by
  refine ⟨fun limit session init nexts => ⟨?_, ?_, ?_, ?_, ?_, ?_⟩,
          fun limit init nexts => ⟨?_, ?_, ?_⟩,
          fun limit session listAll => listNetworkWatchers_no_next limit session listAll⟩
  · exact runList_waitBeforeNext true _ _ limit session init nexts
  · exact runList_waitBeforeNext false _ _ limit session init nexts
  · exact runList_waitBeforeNext true _ _ limit session init nexts
  · exact runList_waitBeforeNext true _ _ limit session init nexts
  · exact runList_waitBeforeNext true _ _ limit session init nexts
  · exact runList_waitBeforeNext true _ _ limit session init nexts
  · exact runList_trace_take_three true _ _ limit init nexts
  · exact runList_trace_take_three false _ _ limit init nexts
  · exact runList_trace_take_three true _ _ limit init nexts

/-- Claim C7: the items streamed by a list run over successfully fetched
pages are exactly the concatenation of the pages' items in page order (each
item exactly once, no buffering, no dedup), truncated only by the row
budget; `listAppConfigurations` streams them all, never truncating. -/
theorem C7_pages_streamed_in_order :
    (∀ (limit : Option Nat) (p0 : Page Nat) (ps : List (Page Nat)),
      streamsOf (listIamRoleDefinitions limit (Except.ok ())
          (Except.ok p0) (ps.map Except.ok)).trace = budgetTake limit (itemsAvail p0 ps)
      ∧ streamsOf (listPolicyAssignments limit (Except.ok ())
          (Except.ok p0) (ps.map Except.ok)).trace = budgetTake limit (itemsAvail p0 ps)
      ∧ streamsOf (listSecurityCenterAutoProvisioning limit (Except.ok ())
          (Except.ok p0) (ps.map Except.ok)).trace = budgetTake limit (itemsAvail p0 ps)
      ∧ streamsOf (listBackendAddressPools limit (Except.ok ())
          (Except.ok p0) (ps.map Except.ok)).trace = budgetTake limit (itemsAvail p0 ps)
      ∧ streamsOf (listNetworkWatcherFlowLogs limit (Except.ok ())
          (Except.ok p0) (ps.map Except.ok)).trace = budgetTake limit (itemsAvail p0 ps)
      ∧ streamsOf (listAppConfigurations limit (Except.ok ())
          (Except.ok p0) (ps.map Except.ok)).trace = itemsAvail p0 ps)
    ∧ (∀ (limit : Option Nat) (vs : List Nat),
      streamsOf (listNetworkWatchers limit (Except.ok ()) (Except.ok vs)).trace
        = budgetTake limit vs) := by
  refine ⟨fun limit p0 ps => ⟨?_, ?_, ?_, ?_, ?_, ?_⟩,
          fun limit vs => listNetworkWatchers_streams limit vs⟩
  · exact runList_checked_streams _ _ limit p0 ps
  · exact runList_checked_streams _ _ limit p0 ps
  · exact runList_checked_streams _ _ limit p0 ps
  · exact runList_checked_streams _ _ limit p0 ps
  · exact runList_checked_streams _ _ limit p0 ps
  · exact runList_unchecked_streams _ _ limit p0 ps

/-- Claim C8: when the provider Get succeeds but the returned object's ID is
nil, `getNetworkWatcher`, `getAppConfiguration` and `getBackendAddressPool`
return an empty result (nil item, nil error) instead of the empty object. -/
theorem C8_nil_id_gives_empty_result :
    (∀ name rg : String,
      (getNetworkWatcher name rg (Except.ok ())
        (Except.ok ⟨none⟩)).ret = ⟨GoVal.nil, none⟩)
    ∧ (∀ name rg : String, name ≠ "" → rg ≠ "" →
      (getAppConfiguration name rg (Except.ok ())
        (Except.ok ⟨none⟩)).ret = ⟨GoVal.nil, none⟩)
    ∧ (∀ lb name rg : String, lb ≠ "" → name ≠ "" → rg ≠ "" →
      (getBackendAddressPool lb name rg (Except.ok ())
        (Except.ok ⟨none⟩)).ret = ⟨GoVal.nil, none⟩) := by
  refine ⟨fun name rg => rfl, fun name rg h1 h2 => ?_, fun lb name rg h1 h2 h3 => ?_⟩
  · simp only [getAppConfiguration, if_neg (by tauto : ¬ (name = "" ∨ rg = ""))]
    rfl
  · simp only [getBackendAddressPool,
      if_neg (by tauto : ¬ (lb = "" ∨ name = "" ∨ rg = ""))]
    rfl

/-- Witness for the C8 theorem at concrete inputs. -/
theorem C8_nil_id_gives_empty_result_witness :
    ("cfg" ≠ "") ∧ ("rg" ≠ "")
    ∧ (getAppConfiguration "cfg" "rg" (Except.ok ())
        (Except.ok ⟨none⟩)).ret = ⟨GoVal.nil, none⟩
    ∧ (getBackendAddressPool "lb" "pool" "rg" (Except.ok ())
        (Except.ok ⟨none⟩)).ret = ⟨GoVal.nil, none⟩ :=
  ⟨by decide, by decide,
   C8_nil_id_gives_empty_result.2.1 "cfg" "rg" (by decide) (by decide),
   C8_nil_id_gives_empty_result.2.2 "lb" "pool" "rg"
     (by decide) (by decide) (by decide)⟩

/-- Claim C9: when any required key-column qual is the empty string,
`getAppConfiguration` and `getBackendAddressPool` return `(nil, nil)` with
an empty trace: no session is created and no outbound call is issued. -/
theorem C9_empty_qual_no_call :
    (∀ (name rg : String) (session : Except String Unit)
        (g : Except String AzureResource),
      (name = "" ∨ rg = "") →
      getAppConfiguration name rg session g = ⟨[], ⟨GoVal.nil, none⟩⟩)
    ∧ (∀ (lb name rg : String) (session : Except String Unit)
        (g : Except String AzureResource),
      (lb = "" ∨ name = "" ∨ rg = "") →
      getBackendAddressPool lb name rg session g = ⟨[], ⟨GoVal.nil, none⟩⟩) := by
  constructor
  · intro name rg session g h
    simp only [getAppConfiguration, if_pos h]
  · intro lb name rg session g h
    simp only [getBackendAddressPool, if_pos h]

/-- Witness for the C9 theorem at concrete inputs. -/
theorem C9_empty_qual_no_call_witness :
    (("" : String) = "" ∨ ("rg" : String) = "")
    ∧ getAppConfiguration "" "rg" (Except.ok ()) (Except.ok ⟨some "id"⟩)
        = ⟨[], ⟨GoVal.nil, none⟩⟩
    ∧ getBackendAddressPool "lb" "" "rg" (Except.ok ()) (Except.ok ⟨some "id"⟩)
        = ⟨[], ⟨GoVal.nil, none⟩⟩ :=
  ⟨by decide,
   C9_empty_qual_no_call.1 "" "rg" (Except.ok ()) (Except.ok ⟨some "id"⟩)
     (by decide),
   C9_empty_qual_no_call.2 "lb" "" "rg" (Except.ok ()) (Except.ok ⟨some "id"⟩)
     (by decide)⟩

/-- Claim C10: the fixed-segment indexing of the '/'-split resource IDs is in
bounds — the out-of-bounds (panic) branch, modelled by `none`, is
unreachable — whenever the ID has at least 9 segments (for segment 8, the
load-balancer name) respectively at least 5 segments (for segment 4, the
resource group). -/
theorem C10_id_split_in_bounds (id : String) :
    (9 ≤ (splitOnSlash id.data).length →
      (extractLoadBalancerNameFromBackendAddressPoolID id).isSome = true)
    ∧ (5 ≤ (splitOnSlash id.data).length →
      (listBackendAddressPoolsResourceGroup id).isSome = true)
    ∧ (5 ≤ (splitOnSlash id.data).length →
      (listNetworkWatcherFlowLogsResourceGroup id).isSome = true) := by
  refine ⟨fun h => ?_, fun h => ?_, fun h => ?_⟩
  · simp [extractLoadBalancerNameFromBackendAddressPoolID,
          List.getElem?_eq_getElem (by omega : 8 < (splitOnSlash id.data).length)]
  · simp [listBackendAddressPoolsResourceGroup,
          List.getElem?_eq_getElem (by omega : 4 < (splitOnSlash id.data).length)]
  · simp [listNetworkWatcherFlowLogsResourceGroup,
          List.getElem?_eq_getElem (by omega : 4 < (splitOnSlash id.data).length)]

/-- Witness for the C10 theorem at a real-format backend-address-pool ID. -/
theorem C10_id_split_in_bounds_witness :
    9 ≤ (splitOnSlash ("/subscriptions/sub1/resourceGroups/rg1/providers/Microsoft.Network/loadBalancers/lb1/backendAddressPools/pool1").data).length
    ∧ (extractLoadBalancerNameFromBackendAddressPoolID
        "/subscriptions/sub1/resourceGroups/rg1/providers/Microsoft.Network/loadBalancers/lb1/backendAddressPools/pool1").isSome = true :=
  ⟨by decide,
   (C10_id_split_in_bounds
     "/subscriptions/sub1/resourceGroups/rg1/providers/Microsoft.Network/loadBalancers/lb1/backendAddressPools/pool1").1
     (by decide)⟩

end SteampipeAzure
